import Mathlib

/-!
# Verification of the cms-json schema/data engine

Shallow embedding of the schema-driven editing engine (node-type resolution,
path resolution, name-collision avoidance, node/field mutation with data
migration) and proofs settling the frozen claims about it.

JavaScript runtime values are modelled by `Value`; JS objects are association
lists with unique keys (JS objects cannot hold a key twice, so deleting a key
removes every binding of it in the model).  Exceptions become `Except Err`;
in-place mutation becomes explicit state passing: each mutating operation
returns the updated structures it would have mutated.
-/

namespace CmsJson

/-- JS runtime values as used by the engine (strings, booleans, integers,
arrays, plain objects, `undefined`, `null`, and `NaN` as produced by
`parseInt`).  Numbers are modelled as integers: the engine only ever
produces integer numbers (`parseInt`, `-1`, array lengths). -/
inductive Value where
  | vstr (s : String)
  | vbool (b : Bool)
  | vnum (n : Int)
  | arr (elems : List Value)
  | obj (entries : List (String × Value))
  | undefined
  | vnull
  | nan

/-- A field declaration as it appears in `model.fields`: either a bare
display-name string or a structured `{name, type?, key?}` record. -/
inductive FieldDecl where
  | plain (name : String)
  | decl (name : String) (type : Option String) (key : Bool)

/-- A normalized field (result of `getField`). -/
structure Field where
  name : String
  type : Option String
  key : Bool

/-- A schema node (`Model` in the source): display name, optional `type`
string, legacy `list` flag, optional ordered children, optional ordered
field declarations. -/
inductive Model where
  | mk (name : String) (type : Option String) (list : Bool)
      (children : Option (List Model)) (fields : Option (List FieldDecl))

def Model.name : Model → String
  | .mk n _ _ _ _ => n

def Model.type : Model → Option String
  | .mk _ t _ _ _ => t

def Model.list : Model → Bool
  | .mk _ _ l _ _ => l

def Model.children : Model → Option (List Model)
  | .mk _ _ _ c _ => c

def Model.fields : Model → Option (List FieldDecl)
  | .mk _ _ _ _ f => f

def Model.setName (m : Model) (n : String) : Model :=
  match m with
  | .mk _ t l c f => .mk n t l c f

def Model.setChildren (m : Model) (c : Option (List Model)) : Model :=
  match m with
  | .mk n t l _ f => .mk n t l c f

def Model.setFields (m : Model) (f : Option (List FieldDecl)) : Model :=
  match m with
  | .mk n t l c _ => .mk n t l c f

/-- A node projection (`Node` in the source): schema node, its live data,
a back-reference to the parent projection, slash-joined addresses, and the
`dataIndex`/`fieldIndex` slots (`Value` because the source stores numbers,
strings, or leaves them `undefined` depending on the creating site). -/
inductive Node where
  | mk (model : Model) (data : Value) (parent : Option Node)
      (path : String) (treePath : String) (dataIndex : Value) (fieldIndex : Value)

def Node.model : Node → Model
  | .mk m _ _ _ _ _ _ => m

def Node.data : Node → Value
  | .mk _ d _ _ _ _ _ => d

def Node.parent : Node → Option Node
  | .mk _ _ p _ _ _ _ => p

def Node.path : Node → String
  | .mk _ _ _ p _ _ _ => p

def Node.treePath : Node → String
  | .mk _ _ _ _ t _ _ => t

def Node.dataIndex : Node → Value
  | .mk _ _ _ _ _ d _ => d

def Node.fieldIndex : Node → Value
  | .mk _ _ _ _ _ _ f => f

/-- Error kinds per the spec's taxonomy (§7); each carries the thrown
message.  The source throws plain `Error`s; the kind is determined by the
throw site. -/
inductive Err where
  | indexError (msg : String)
  | notFoundError (msg : String)
  | protectedFieldError (msg : String)
  | unsupportedOperationError (msg : String)
  | typeError (msg : String)

def TYPE_TREE : String := "tree"
def TYPE_MAP_OBJECT : String := "map<object>"
def TYPE_MAP_STRING : String := "map<string>"
def TYPE_LIST_OBJECT : String := "list<object>"
def FIELD_TYPE_STRING : String := "string"
def FIELD_TYPE_BOOLEAN : String := "boolean"
def FIELD_TYPE_ARRAY : String := "array"
def FIELD_TYPE_MARKDOWN : String := "markdown"

/-- The whitespace class of the regex `/\s/` (ASCII part; the engine's
display names only use ordinary spacing characters). -/
def isSpaceChar (c : Char) : Bool :=
  c = ' ' ∨ c = '\t' ∨ c = '\n' ∨ c = '\r' ∨ c = '\x0b' ∨ c = '\x0c'

def slugChar (c : Char) : Char :=
  if isSpaceChar c then '_' else if c = '/' then '-' else c.toLower

/-- `slugify`: replace whitespace with `_`, `/` with `-`, then lowercase.
The three passes of the source commute characterwise ( `_` and `-` are
unaffected by `toLowerCase`), so a single character map is equivalent. -/
def slugify (s : String) : String :=
  ⟨s.data.map slugChar⟩

/-- `s.split(sep)` for a one-character separator, as JS splits paths on
`/` (`""` splits to `[""]`, separators at the ends produce empty
segments). -/
def splitAux (sep : Char) : List Char → List Char → List String
  | [], acc => [⟨acc.reverse⟩]
  | c :: rest, acc =>
    if c = sep then ⟨acc.reverse⟩ :: splitAux sep rest [] else splitAux sep rest (c :: acc)

def jsSplit (s : String) (sep : Char) : List String :=
  splitAux sep s.data []

/-- JS truthiness of a `Value`. -/
def jsTruthy : Value → Bool
  | .vstr s => s ≠ ""
  | .vbool b => b
  | .vnum n => n ≠ 0
  | .arr _ => true
  | .obj _ => true
  | .undefined => false
  | .vnull => false
  | .nan => false

def digitChar (n : Nat) : Char :=
  match n with
  | 0 => '0' | 1 => '1' | 2 => '2' | 3 => '3' | 4 => '4'
  | 5 => '5' | 6 => '6' | 7 => '7' | 8 => '8' | 9 => '9'
  | _ => '*'

/-- Decimal digits with explicit fuel (structural recursion, so that the
kernel can evaluate it); `fuel ≥ n` always suffices, and the fuel-0 case is
only reachable for `n = 0`, where it agrees. -/
def natDigitsFuel : Nat → Nat → List Char
  | 0, n => [digitChar n]
  | fuel + 1, n =>
    if n < 10 then [digitChar n] else natDigitsFuel fuel (n / 10) ++ [digitChar (n % 10)]

/-- Decimal digit list of a natural number (most significant first), as JS
renders integral numbers. -/
def natDigits (n : Nat) : List Char :=
  natDigitsFuel n n

/-- JS decimal rendering of a natural number. -/
def natRepr (n : Nat) : String :=
  ⟨natDigits n⟩

/-- JS decimal rendering of an integral number. -/
def intRepr (i : Int) : String :=
  if i < 0 then "-" ++ natRepr i.natAbs else natRepr i.natAbs

mutual

/-- JS string conversion `"" + v`. -/
def toJSString : Value → String
  | .vstr s => s
  | .vbool b => if b then "true" else "false"
  | .vnum n => intRepr n
  | .arr xs => arrJoin xs
  | .obj _ => "[object Object]"
  | .undefined => "undefined"
  | .vnull => "null"
  | .nan => "NaN"

/-- Array-to-string: elements joined by `,`. -/
def arrJoin : List Value → String
  | [] => ""
  | [x] => arrElemString x
  | x :: y :: xs => arrElemString x ++ "," ++ arrJoin (y :: xs)

/-- Inside `Array.prototype.toString`, `undefined` and `null` render as
empty strings. -/
def arrElemString : Value → String
  | .undefined => ""
  | .vnull => ""
  | v => toJSString v

end

/-- `parseInt(s)` (radix 10): skip leading whitespace, optional sign, read
leading decimal digits; `none` models `NaN`.  (The `0x` hex-prefix corner
of `parseInt` is not modelled; the engine only parses list indices.) -/
def jsParseInt (s : String) : Option Int :=
  let chars := s.toList.dropWhile isSpaceChar
  let signAndRest : Int × List Char :=
    match chars with
    | '-' :: r => (-1, r)
    | '+' :: r => (1, r)
    | r => (1, r)
  let digits := signAndRest.2.takeWhile (·.isDigit)
  if digits.isEmpty then none
  else some (signAndRest.1 * (digits.foldl (fun acc c => 10 * acc + (c.toNat - 48)) 0 : Nat))

/-- Property read on an association-list object: value of the first binding
of `k`, or `undefined`. -/
def objGet (k : String) : List (String × Value) → Value
  | [] => .undefined
  | kv :: rest => if kv.1 = k then kv.2 else objGet k rest

def objHas (k : String) (kvs : List (String × Value)) : Bool :=
  kvs.any (·.1 = k)

/-- Property write: replace the binding of `k` in place, else append it.
(JS objects hold at most one binding per key, so replacing every match
equals replacing the one match.) -/
def objSet (k : String) (v : Value) (kvs : List (String × Value)) :
    List (String × Value) :=
  if objHas k kvs then kvs.map (fun kv => if kv.1 = k then (k, v) else kv)
  else kvs ++ [(k, v)]

/-- `delete o[k]`: drop the binding of `k` (every binding of it; JS objects
hold at most one). -/
def objDelete (k : String) (kvs : List (String × Value)) :
    List (String × Value) :=
  kvs.filter (fun kv => kv.1 ≠ k)

/-- JS property read `v[k]` for a string key: fails on `undefined`/`null`,
looks up own bindings of objects, yields `undefined` on other values
(string/array exotic properties are not modelled; the engine never reads
string keys off non-objects). -/
def jsGetProp (v : Value) (k : String) : Except Err Value :=
  match v with
  | .obj kvs => .ok (objGet k kvs)
  | .undefined => .error (.typeError ("Cannot read properties of undefined (reading " ++ k ++ ")"))
  | .vnull => .error (.typeError ("Cannot read properties of null (reading " ++ k ++ ")"))
  | _ => .ok .undefined

/-- JS property write `v[k] = x` in strict mode: fails on `undefined`,
`null` and primitives, updates objects.  (String-keyed expando properties
on arrays are not modelled; the engine never writes them.) -/
def jsSetProp (v : Value) (k : String) (x : Value) : Except Err Value :=
  match v with
  | .obj kvs => .ok (.obj (objSet k x kvs))
  | .arr xs => .ok (.arr xs)
  | .undefined => .error (.typeError ("Cannot set properties of undefined (setting " ++ k ++ ")"))
  | .vnull => .error (.typeError ("Cannot set properties of null (setting " ++ k ++ ")"))
  | _ => .error (.typeError "Cannot create property on primitive value")

/-- JS `delete v[k]` in strict mode: fails on `undefined`/`null`, removes
the binding on objects, is a no-op on other values. -/
def jsDelProp (v : Value) (k : String) : Except Err Value :=
  match v with
  | .obj kvs => .ok (.obj (objDelete k kvs))
  | .undefined => .error (.typeError ("Cannot convert undefined to object"))
  | .vnull => .error (.typeError ("Cannot convert null to object"))
  | _ => .ok v

/-- `a || b`. -/
def jsOr (a b : Value) : Value :=
  if jsTruthy a then a else b

/-- Indexed read `v[i]` with a numeric (or `NaN`) index, as in the
LIST_OBJECT branch of `_findNode`. -/
def jsGetElem (v : Value) (idx : Option Int) : Except Err Value :=
  match v with
  | .arr xs =>
    .ok (match idx with
      | some i => if h : 0 ≤ i ∧ i.toNat < xs.length then xs.get ⟨i.toNat, h.2⟩ else .undefined
      | none => .undefined)
  | .obj kvs =>
    -- a numeric index on a plain object reads the stringified key
    .ok (match idx with
      | some i => objGet (intRepr i) kvs
      | none => objGet "NaN" kvs)
  | .undefined => .error (.typeError "Cannot read properties of undefined")
  | .vnull => .error (.typeError "Cannot read properties of null")
  | _ => .ok .undefined

/-- `getNodeType` on a schema node: declared `type` if truthy, else the
legacy `list` flag selects LIST_OBJECT, else TREE. -/
def getNodeTypeM (m : Model) : String :=
  match m.type with
  | some t => if t ≠ "" then t else if m.list then TYPE_LIST_OBJECT else TYPE_TREE
  | none => if m.list then TYPE_LIST_OBJECT else TYPE_TREE

def getNodeType (node : Node) : String :=
  getNodeTypeM node.model

/-- `getField`: a bare string becomes `{name}` (no type, not a key);
a structured declaration passes through. -/
def getField : FieldDecl → Field
  | .plain n => ⟨n, none, false⟩
  | .decl n t k => ⟨n, t, k⟩

def getFieldAt (node : Node) (fieldIndex : Int) : Except Err Field :=
  if fieldIndex < 0 then .error (.indexError "Negative field index")
  else match node.model.fields with
    | some fs =>
      match fs[fieldIndex.toNat]? with
      | some f => .ok (getField f)
      | none => .error (.notFoundError ("No field at index for node " ++ node.model.name))
    | none => .error (.notFoundError ("No field at index for node " ++ node.model.name))

/-- `_getStructNode`: the node holding the struct data — the parent when the
node denotes an item (`dataIndex !== -1`, which is also true when
`dataIndex` is `undefined`), the node itself otherwise.  When the source
returns an undefined parent, both callers immediately read `.model` of it
and throw, which is modelled as the error here. -/
def _getStructNode (node : Node) : Except Err Node :=
  let isMinusOne : Bool := match node.dataIndex with | .vnum n => n = -1 | _ => false
  if isMinusOne then .ok node
  else match node.parent with
    | some p => .ok p
    | none => .error (.typeError "Cannot read properties of undefined (reading model)")

def unsupportedListMsg (m : Model) : String :=
  "Cannot list items for type: " ++ (match m.type with | some t => t | none => "undefined")

/-- `getDataItems`: the data sequence of a LIST_OBJECT, the object values of
a map type; anything else throws.  Data of the wrong runtime shape makes
the callers' iteration throw, modelled as the `typeError` cases. -/
def getDataItems (node : Node) : Except Err (List Value) :=
  let t := getNodeType node
  if t = TYPE_LIST_OBJECT then
    match node.data with
    | .arr xs => .ok xs
    | _ => .error (.typeError "forEach is not a function")
  else if t = TYPE_MAP_OBJECT ∨ t = TYPE_MAP_STRING then
    match node.data with
    | .obj kvs => .ok (kvs.map (·.2))
    | _ => .error (.typeError "Object.values requires an object")
  else .error (.unsupportedOperationError (unsupportedListMsg node.model))

/-- `getDataItems(struct).forEach(item => mutate(item))`: the items alias
the underlying data, so mutating each item in place is mapping the update
over the data sequence/object values.  A mid-iteration throw is modelled as
failure of the whole operation. -/
def mapDataItems (t : String) (m : Model) (data : Value)
    (f : Value → Except Err Value) : Except Err Value :=
  if t = TYPE_LIST_OBJECT then
    match data with
    | .arr xs => do
        let xs' ← xs.mapM f
        .ok (.arr xs')
    | _ => .error (.typeError "forEach is not a function")
  else if t = TYPE_MAP_OBJECT ∨ t = TYPE_MAP_STRING then
    match data with
    | .obj kvs => do
        let kvs' ← kvs.mapM (fun kv => do
          let v' ← f kv.2
          pure (kv.1, v'))
        .ok (.obj kvs')
    | _ => .error (.typeError "Object.values requires an object")
  else .error (.unsupportedOperationError (unsupportedListMsg m))

def _checkDeleteFieldAt (node : Node) (fieldIndex : Int) : Except Err Field := do
  let field ← getFieldAt node fieldIndex
  if field.key then
    .error (.protectedFieldError ("Cannot delete: field " ++ field.name ++ " is a key field"))
  else if getNodeType node = TYPE_MAP_STRING then
    .error (.protectedFieldError
      ("Cannot delete: field " ++ field.name ++ " is the value field, which is a map(string)"))
  else .ok field

/-- `canDeleteFieldAt`: probe `_checkDeleteFieldAt`, catching anything it
throws. -/
def canDeleteFieldAt (node : Node) (fieldIndex : Int) : Bool :=
  match _checkDeleteFieldAt node fieldIndex with
  | .ok _ => true
  | .error _ => false

/-- `deleteFieldAt`: check, remove the field's data key from every item of
the struct node, splice the declaration out of the schema.  Returns the
updated field list and the struct node's updated data. -/
def deleteFieldAt (node : Node) (fieldIndex : Int) :
    Except Err (List FieldDecl × Value) := do
  let field ← _checkDeleteFieldAt node fieldIndex
  let structNode ← _getStructNode node
  let data' ← mapDataItems (getNodeType structNode) structNode.model structNode.data
    (fun item => jsDelProp item (slugify field.name))
  .ok ((node.model.fields.getD []).eraseIdx fieldIndex.toNat, data')

/-- `_convert(value, prevFieldType, newFieldType)` (the previous type is
unused by the source as well). -/
def _convert (value : Value) (prevFieldType newFieldType : Option String) :
    Except Err Value :=
  if newFieldType = some FIELD_TYPE_STRING ∨ newFieldType = some FIELD_TYPE_MARKDOWN then
    .ok (.vstr (if jsTruthy value then toJSString value else ""))
  else if newFieldType = some FIELD_TYPE_BOOLEAN then
    .ok (.vbool (jsTruthy value))
  else if newFieldType = some FIELD_TYPE_ARRAY then
    .ok (.arr [value])
  else
    .error (.unsupportedOperationError
      ("Unknown type: " ++ (match newFieldType with | some t => t | none => "undefined")))

/-- `fields[i] = f` on a JS array: replace below the length, append at the
length (larger indices, which would create holes, are unreachable here). -/
def listSetAt (fs : List FieldDecl) (i : Nat) (f : FieldDecl) : List FieldDecl :=
  if i < fs.length then fs.set i f else fs ++ [f]

/-- `updateFieldAt(node, fieldIndex, field)`.  Returns the updated field
declarations and, when the existing-field branch ran, the struct node's
migrated data (`none` when the new-field branch ran and no data was
touched). -/
def updateFieldAt (node : Node) (fieldIndex : Option Int) (field : FieldDecl) :
    Except Err (List FieldDecl × Option Value) :=
  let isNew : Bool := match fieldIndex with | none => true | some i => i = -1
  match node.model.fields with
  | none => .error (.typeError "Cannot read properties of undefined")
  | some fs =>
    if isNew then
      -- the field does not exist, just compute the new model index
      .ok (listSetAt fs fs.length field, none)
    else
      match fieldIndex with
      | none => .error (.typeError "unreachable: isNew covers none")
      | some i =>
        -- fields[i] is undefined off the array; reading .name of it throws
        if i < 0 then .error (.typeError "Cannot read properties of undefined (reading name)")
        else match fs[i.toNat]? with
        | none => .error (.typeError "Cannot read properties of undefined (reading name)")
        | some pf => do
          let newField := getField field
          let prevField := getField pf
          let structNode ← _getStructNode node
          let nodeType := getNodeType structNode
          let data1 ←
            if newField.name ≠ prevField.name
                ∧ (nodeType = TYPE_LIST_OBJECT ∨ nodeType = TYPE_MAP_OBJECT)
                ∧ ¬ newField.key then
              mapDataItems nodeType structNode.model structNode.data (fun item => do
                let v ← jsGetProp item (slugify prevField.name)
                let item1 ← jsSetProp item (slugify newField.name) v
                jsDelProp item1 (slugify prevField.name))
            else pure structNode.data
          let data2 ←
            if newField.type ≠ prevField.type then
              mapDataItems nodeType structNode.model data1 (fun item => do
                let v ← jsGetProp item (slugify newField.name)
                let c ← _convert v prevField.type newField.type
                jsSetProp item (slugify newField.name) c)
            else pure data1
          .ok (listSetAt fs i.toNat field, some data2)

/-- `renameNode(node, name)`: set the display name; with a parent, move the
parent's data from the old slug key to the new one (copy, then delete the
old key) and recompute `path`/`treePath` from the parent's path plus the
new slug.  Returns the updated node (whose `parent` is the updated
parent). -/
def renameNode (node : Node) (name : String) : Except Err Node :=
  let previousName := node.model.name
  let model' := node.model.setName name
  match node.parent with
  | none =>
    .ok (match node with | .mk _ d p pa tp di fi => .mk model' d p pa tp di fi)
  | some parent => do
    let oldVal ← jsGetProp parent.data (slugify previousName)
    let pdata1 ← jsSetProp parent.data (slugify name) oldVal
    let path' := if parent.path ≠ "" then parent.path ++ "/" ++ slugify name else slugify name
    let pdata2 ← jsDelProp pdata1 (slugify previousName)
    let parent' : Node :=
      match parent with | .mk m _ p pa tp di fi => .mk m pdata2 p pa tp di fi
    .ok (.mk model' node.data (some parent') path' path' node.dataIndex node.fieldIndex)

/-- `deleteNode(node)`: find the schema child of the parent with the node's
name, splice it out and delete the matching slug key from the parent's
data.  Returns the updated parent. -/
def deleteNode (node : Node) : Except Err Node :=
  match node.parent with
  | none => .error (.typeError "Cannot read properties of undefined (reading model)")
  | some parentNode =>
    match parentNode.model.children with
    | none => .error (.typeError "Cannot read properties of undefined (reading length)")
    | some modelChildren =>
      match modelChildren.findIdx? (fun c => c.name = node.model.name) with
      | some i => do
          let data' ← jsDelProp parentNode.data (slugify node.model.name)
          .ok (match parentNode with
            | .mk m _ p pa tp di fi =>
              .mk (m.setChildren (some (modelChildren.eraseIdx i))) data' p pa tp di fi)
      | none => .error (.notFoundError ("Could not delete node " ++ node.model.name))

/-- The `idx`-th probe name: the requested name itself for `idx = 1`, then
`name (idx)`. -/
def nodeNameCandidate (newName : String) (idx : Nat) : String :=
  if idx = 1 then newName else newName ++ " (" ++ natRepr idx ++ ")"

/-- The probe loop of `_findNewNodeName`, with explicit fuel: the source
recursion terminates because the probe names are pairwise distinct and the
sibling names finite, so `children.length + 1` probes from index 1 always
reach a free name (`findNewNodeNameAux_spec` below); the fuel-exhausted
fallback is unreachable from the engine's call. -/
def _findNewNodeNameAux (children : List Model) (newName : String) (idx : Nat) :
    Nat → String
  | 0 => nodeNameCandidate newName idx
  | fuel + 1 =>
    let fullName := nodeNameCandidate newName idx
    if children.any (fun c => c.name = fullName) then
      _findNewNodeNameAux children newName (idx + 1) fuel
    else fullName

def _findNewNodeName (node : Node) (newName : String) (idx : Nat) : String :=
  let children := node.model.children.getD []
  _findNewNodeNameAux children newName idx (children.length + 1)

/-- The `children` initialization of `addNode`'s type switch (TREE starts
with an empty children sequence; the other cases leave it absent, as does
an unknown type, which falls through the switch). -/
def addNodeChildrenInit (nodeType : String) : Option (List Model) :=
  if nodeType = TYPE_TREE then some [] else none

/-- The `fields` initialization of `addNode`'s type switch. -/
def addNodeFieldsInit (nodeType : String) : Option (List FieldDecl) :=
  if nodeType = TYPE_MAP_OBJECT then some [.decl "Key" none true]
  else if nodeType = TYPE_MAP_STRING then some [.decl "Key" none true, .plain "Value"]
  else if nodeType = TYPE_LIST_OBJECT then some [.plain "Name"]
  else none

/-- The data container of `addNode`'s type switch (`undefined` for an
unknown type, which leaves `newData` unassigned). -/
def addNodeDataInit (nodeType : String) : Value :=
  if nodeType = TYPE_TREE ∨ nodeType = TYPE_MAP_OBJECT ∨ nodeType = TYPE_MAP_STRING then .obj []
  else if nodeType = TYPE_LIST_OBJECT then .arr []
  else .undefined

/-- `addNode(node, requestedName, nodeType)`: build a schema node with a
collision-free name and type-appropriate defaults, append it to the
parent's children (created when absent), insert its data container under
the slug of its name, and return a projection for it (built by
`Object.assign` from the parent, hence the inherited `fieldIndex`).
Returns the updated parent together with that projection. -/
def addNode (node : Node) (requestedName : String) (nodeType : String) :
    Except Err (Node × Node) := do
  let newName := _findNewNodeName node requestedName 1
  let newModel : Model :=
    .mk newName (some nodeType) false (addNodeChildrenInit nodeType) (addNodeFieldsInit nodeType)
  let newData : Value := addNodeDataInit nodeType
  let children := node.model.children.getD []
  let model' := node.model.setChildren (some (children ++ [newModel]))
  let data' ← jsSetProp node.data (slugify newModel.name) newData
  let parent' : Node :=
    match node with | .mk _ _ p pa tp di fi => .mk model' data' p pa tp di fi
  let path := node.path ++ "/" ++ slugify newModel.name
  .ok (parent', .mk newModel newData (some parent') path path (.vnum (-1)) node.fieldIndex)

/-- `_findChild(node, slug)`: first child of the schema node whose
slugified name matches, projected with the matching data key. -/
def _findChild (node : Node) (slug : String) : Except Err Node :=
  match node.model.children with
  | none => .error (.notFoundError ("Could not find child with slug " ++ slug))
  | some cs =>
    match cs.find? (fun c => slugify c.name = slug) with
    | some childModel => do
        let childData ← jsGetProp node.data slug
        let childPath := node.path ++ "/" ++ slug
        .ok (.mk childModel childData (some node) childPath childPath .undefined (.vnum (-1)))
    | none => .error (.notFoundError ("Could not find child with slug " ++ slug))

/-- The accumulator threaded through `_treePathAndIndex` (its `treePath` is
a list joined with `/` at the end). -/
structure PathAcc where
  fullPath : String
  treePath : List String
  dataIndex : Value

/-- The resolved `Path` record of `treePathAndIndex`. -/
structure Path where
  fullPath : String
  treePath : String
  dataIndex : Value

def _treePathAndIndex (node : Node) (path : List String) (result : PathAcc) :
    Except Err PathAcc :=
  match path with
  | [] => .ok result
  | p :: rest =>
    if (node.model.children.getD []).length > 0 then do
      let result' := { result with treePath := result.treePath ++ [p] }
      let child ← _findChild node p
      _treePathAndIndex child rest result'
    else
      let t := getNodeType node
      if t = TYPE_LIST_OBJECT then
        .ok { result with
          dataIndex := match jsParseInt p with | some i => .vnum i | none => .nan }
      else if t = TYPE_MAP_OBJECT ∨ t = TYPE_MAP_STRING then
        .ok { result with dataIndex := .vstr p }
      else
        -- the source throws the literal text (the template is single-quoted)
        .error (.notFoundError "No child for path ${path}")

/-- `treePathAndIndex(tree, path)`: walk schema children accumulating the
tree path; a remaining segment at a leaf container becomes the
`dataIndex` (parsed as an integer for LIST_OBJECT, used as-is for map
types). -/
def treePathAndIndex (tree : Node) (path : String) : Except Err Path := do
  let segs := if path.length > 0 then jsSplit path '/' else []
  let res ← _treePathAndIndex tree segs ⟨path, [], .vnum (-1)⟩
  .ok ⟨res.fullPath, String.intercalate "/" res.treePath, res.dataIndex⟩

/-- `_findNode(node, path)`, the recursive worker of `findNode`.  In the
TREE branch the `||` fallback calls `getNodeType(childModel)` where
`childModel` is a schema `Model`, not a projection: reading
`childModel.model.type` throws, so a falsy data value under a TREE child
always throws there. -/
def _findNode (node : Node) (path : List String) : Except Err Node :=
  let nodeType := getNodeType node
  match path with
  | [] => .ok node
  | next :: rest =>
    if nodeType = TYPE_TREE then
      match node.model.children with
      | none => .error (.typeError "Cannot read properties of undefined (reading length)")
      | some cs =>
        match cs.find? (fun c => slugify c.name = next) with
        | some childModel => do
            let treePath := (if node.path ≠ "" then node.path ++ "/" else "") ++ next
            let dataNext ← jsGetProp node.data next
            if jsTruthy dataNext then
              _findNode (.mk childModel dataNext (some node) treePath treePath (.vnum (-1)) .undefined) rest
            else
              .error (.typeError "Cannot read properties of undefined (reading type)")
        | none =>
          .error (.notFoundError ("Could not find child named " ++ next ++ " in node " ++ node.model.name))
    else if nodeType = TYPE_LIST_OBJECT then do
      let dataIndex := jsParseInt next
      let dval ← jsGetElem node.data dataIndex
      .ok (.mk node.model (jsOr dval (.obj [])) (some node)
        ((if node.path ≠ "" then node.path ++ "/" else "") ++ next) node.path
        (match dataIndex with | some i => .vnum i | none => .nan) .undefined)
    else do
      -- map types: the segment is the key; absent keys materialize {} / ""
      let dval ← jsGetProp node.data next
      .ok (.mk node.model (jsOr dval (if nodeType = TYPE_MAP_OBJECT then .obj [] else .vstr "")) (some node)
        ((if node.path ≠ "" then node.path ++ "/" else "") ++ next) node.path (.vstr next) .undefined)

/-- `findNode(node, path)`: the empty path resolves to the node itself;
otherwise the path splits on `/` and resolves recursively. -/
def findNode (node : Node) (path : String) : Except Err Node :=
  if path = "" then .ok node
  else _findNode node (jsSplit path '/')

/-! ## Basic lemmas about the embedding -/

@[simp]
theorem Model.name_mk (n t l c f) : (Model.mk n t l c f).name = n := rfl

@[simp]
theorem Model.type_mk (n t l c f) : (Model.mk n t l c f).type = t := rfl

@[simp]
theorem Model.list_mk (n t l c f) : (Model.mk n t l c f).list = l := rfl

@[simp]
theorem Model.children_mk (n t l c f) : (Model.mk n t l c f).children = c := rfl

@[simp]
theorem Model.fields_mk (n t l c f) : (Model.mk n t l c f).fields = f := rfl

@[simp]
theorem Model.name_setChildren (m : Model) (c) : (m.setChildren c).name = m.name := by
  cases m <;> rfl

@[simp]
theorem Model.children_setChildren (m : Model) (c) : (m.setChildren c).children = c := by
  cases m <;> rfl

@[simp]
theorem Model.type_setChildren (m : Model) (c) : (m.setChildren c).type = m.type := by
  cases m <;> rfl

@[simp]
theorem Model.fields_setChildren (m : Model) (c) : (m.setChildren c).fields = m.fields := by
  cases m <;> rfl

@[simp]
theorem Model.name_setName (m : Model) (n) : (m.setName n).name = n := by
  cases m <;> rfl

@[simp]
theorem Node.model_mk (m d p pa tp di fi) : (Node.mk m d p pa tp di fi).model = m := rfl

@[simp]
theorem Node.data_mk (m d p pa tp di fi) : (Node.mk m d p pa tp di fi).data = d := rfl

@[simp]
theorem Node.parent_mk (m d p pa tp di fi) : (Node.mk m d p pa tp di fi).parent = p := rfl

@[simp]
theorem Node.path_mk (m d p pa tp di fi) : (Node.mk m d p pa tp di fi).path = pa := rfl

@[simp]
theorem Node.treePath_mk (m d p pa tp di fi) : (Node.mk m d p pa tp di fi).treePath = tp := rfl

@[simp]
theorem Node.dataIndex_mk (m d p pa tp di fi) : (Node.mk m d p pa tp di fi).dataIndex = di := rfl

@[simp]
theorem Node.fieldIndex_mk (m d p pa tp di fi) : (Node.mk m d p pa tp di fi).fieldIndex = fi := rfl

theorem objHas_false_iff (k : String) (kvs : List (String × Value)) :
    objHas k kvs = false ↔ ∀ kv ∈ kvs, kv.1 ≠ k := by
  simp [objHas]

theorem objSet_of_not_has {k : String} {kvs : List (String × Value)} (v : Value)
    (h : objHas k kvs = false) : objSet k v kvs = kvs ++ [(k, v)] := by
  simp [objSet, h]

theorem objGet_objSet_self (k : String) (v : Value) (kvs : List (String × Value)) :
    objGet k (objSet k v kvs) = v := by
  by_cases h : objHas k kvs
  · simp only [objSet, h, if_true]
    induction kvs with
    | nil => simp [objHas] at h
    | cons kv rest ih =>
      by_cases hk : kv.1 = k
      · simp [objGet, hk]
      · have hrest : objHas k rest := by
          simp [objHas] at h ⊢
          rcases h with h | h
          · exact absurd h hk
          · exact h
        simpa [objGet, hk] using ih hrest
  · rw [objSet_of_not_has v (by simpa using h)]
    induction kvs with
    | nil => simp [objGet]
    | cons kv rest ih =>
      have hk : kv.1 ≠ k := by
        intro hk
        exact h (by simp [objHas, hk])
      have hrest : ¬ objHas k rest = true := by
        intro hr
        exact h (by simp [objHas] at hr ⊢; right; exact hr)
      simpa [objGet, hk] using ih hrest

theorem objGet_cons (k : String) (kv : String × Value) (rest : List (String × Value)) :
    objGet k (kv :: rest) = if kv.1 = k then kv.2 else objGet k rest := rfl

theorem objDelete_cons (k : String) (kv : String × Value) (rest : List (String × Value)) :
    objDelete k (kv :: rest) =
      if kv.1 = k then objDelete k rest else kv :: objDelete k rest := by
  simp only [objDelete, List.filter_cons]
  by_cases hk : kv.1 = k
  · simp [hk]
  · simp [hk]

theorem objGet_objDelete_other {k k' : String} (h : k ≠ k') (kvs : List (String × Value)) :
    objGet k (objDelete k' kvs) = objGet k kvs := by
  induction kvs with
  | nil => rfl
  | cons kv rest ih =>
    rw [objDelete_cons]
    by_cases hk : kv.1 = k'
    · have hkk : ¬ kv.1 = k := fun hh => h (hh.symm.trans hk)
      rw [if_pos hk, objGet_cons, if_neg hkk]
      exact ih
    · rw [if_neg hk, objGet_cons, objGet_cons]
      by_cases hkk : kv.1 = k
      · rw [if_pos hkk, if_pos hkk]
      · rw [if_neg hkk, if_neg hkk]
        exact ih

theorem objHas_objDelete_self (k : String) (kvs : List (String × Value)) :
    objHas k (objDelete k kvs) = false := by
  induction kvs with
  | nil => rfl
  | cons kv rest ih =>
    rw [objDelete_cons]
    by_cases hk : kv.1 = k
    · rw [if_pos hk]
      exact ih
    · rw [if_neg hk]
      simpa [objHas, hk] using ih

theorem objDelete_append_self {k : String} {kvs : List (String × Value)} (v : Value)
    (h : objHas k kvs = false) : objDelete k (kvs ++ [(k, v)]) = kvs := by
  rw [objDelete, List.filter_append]
  have h1 : List.filter (fun kv => decide (kv.1 ≠ k)) kvs = kvs := by
    rw [List.filter_eq_self]
    intro kv hkv
    have hne := (objHas_false_iff k kvs).mp h kv hkv
    simpa using hne
  rw [h1]
  simp

/-- `mapM` over `Except` succeeds pointwise. -/
theorem mapM_ok {α β : Type} (f : α → Except Err β) (g : α → β) (xs : List α)
    (h : ∀ x ∈ xs, f x = .ok (g x)) : xs.mapM f = .ok (xs.map g) := by
  induction xs with
  | nil => rfl
  | cons x rest ih =>
    rw [List.mapM_cons, h x (by simp)]
    rw [ih (fun y hy => h y (by simp [hy]))]
    rfl

/-! ## Decimal rendering and probe-name machinery -/

theorem digitChar_inj : ∀ a < 10, ∀ b < 10, digitChar a = digitChar b → a = b := by
  decide

theorem natDigitsFuel_congr :
    ∀ (fuel : Nat), ∀ n ≤ fuel, ∀ fuel2, n ≤ fuel2 →
      natDigitsFuel fuel n = natDigitsFuel fuel2 n := by
  intro fuel
  induction fuel with
  | zero =>
    intro n hn fuel2 _
    have hn0 : n = 0 := by omega
    subst hn0
    cases fuel2 with
    | zero => rfl
    | succ f => rw [natDigitsFuel, natDigitsFuel, if_pos (by omega)]
  | succ fuel ih =>
    intro n hn fuel2 hn2
    cases fuel2 with
    | zero =>
      have hn0 : n = 0 := by omega
      subst hn0
      rw [natDigitsFuel, natDigitsFuel, if_pos (by omega)]
    | succ f =>
      rw [natDigitsFuel, natDigitsFuel]
      by_cases h10 : n < 10
      · rw [if_pos h10, if_pos h10]
      · rw [if_neg h10, if_neg h10]
        have hdiv1 : n / 10 ≤ fuel := by omega
        have hdiv2 : n / 10 ≤ f := by omega
        rw [ih (n / 10) hdiv1 f hdiv2]

/-- The defining recurrence of the decimal rendering. -/
theorem natDigits_eq (n : Nat) :
    natDigits n = if n < 10 then [digitChar n]
      else natDigits (n / 10) ++ [digitChar (n % 10)] := by
  by_cases h10 : n < 10
  · rw [if_pos h10, natDigits]
    cases n with
    | zero => rfl
    | succ m => rw [natDigitsFuel, if_pos h10]
  · rw [if_neg h10, natDigits, natDigits]
    cases n with
    | zero => omega
    | succ m =>
      rw [natDigitsFuel, if_neg h10]
      have h1 : (m + 1) / 10 ≤ m := by omega
      rw [natDigitsFuel_congr m ((m + 1) / 10) h1 ((m + 1) / 10) (Nat.le_refl _)]

theorem natDigits_ne_nil (n : Nat) : natDigits n ≠ [] := by
  rw [natDigits_eq]
  split
  · simp
  · simp

theorem natDigits_inj : ∀ (m n : Nat), natDigits m = natDigits n → m = n := by
  intro m
  induction m using Nat.strong_induction_on with
  | _ m ih =>
    intro n h
    have em : ¬ m < 10 → natDigits m = natDigits (m / 10) ++ [digitChar (m % 10)] := by
      intro hh
      rw [natDigits_eq]
      rw [if_neg hh]
    have en : ¬ n < 10 → natDigits n = natDigits (n / 10) ++ [digitChar (n % 10)] := by
      intro hh
      rw [natDigits_eq]
      rw [if_neg hh]
    have em1 : m < 10 → natDigits m = [digitChar m] := by
      intro hh
      rw [natDigits_eq]
      rw [if_pos hh]
    have en1 : n < 10 → natDigits n = [digitChar n] := by
      intro hh
      rw [natDigits_eq]
      rw [if_pos hh]
    by_cases hm : m < 10 <;> by_cases hn : n < 10
    · rw [em1 hm, en1 hn] at h
      simp only [List.cons.injEq, and_true] at h
      exact digitChar_inj m hm n hn h
    · rw [em1 hm, en hn] at h
      have hl := congrArg List.length h
      have hpos : 0 < (natDigits (n / 10)).length :=
        List.length_pos.mpr (natDigits_ne_nil (n / 10))
      simp only [List.length_cons, List.length_nil, List.length_append] at hl
      omega
    · rw [em hm, en1 hn] at h
      have hl := congrArg List.length h
      have hpos : 0 < (natDigits (m / 10)).length :=
        List.length_pos.mpr (natDigits_ne_nil (m / 10))
      simp only [List.length_cons, List.length_nil, List.length_append] at hl
      omega
    · rw [em hm, en hn] at h
      have hinit : natDigits (m / 10) = natDigits (n / 10) := by
        have := congrArg List.dropLast h
        simpa [List.dropLast_concat] using this
      have hlast : digitChar (m % 10) = digitChar (n % 10) := by
        have h1 := congrArg List.getLast? h
        rw [List.getLast?_concat, List.getLast?_concat] at h1
        exact Option.some.inj h1
      have hdiv : m / 10 = n / 10 :=
        ih (m / 10) (Nat.div_lt_self (by omega) (by omega)) (n / 10) hinit
      have hmod : m % 10 = n % 10 :=
        digitChar_inj (m % 10) (Nat.mod_lt m (by omega)) (n % 10) (Nat.mod_lt n (by omega)) hlast
      omega

theorem natRepr_inj (m n : Nat) (h : natRepr m = natRepr n) : m = n :=
  natDigits_inj m n (congrArg String.data h)

theorem natRepr_length_pos (n : Nat) : 0 < (natRepr n).length := by
  rw [natRepr, String.length_mk]
  exact List.length_pos.mpr (natDigits_ne_nil n)

theorem nodeNameCandidate_inj (b : String) (j k : Nat) (hj : 1 ≤ j) (hk : 1 ≤ k)
    (h : nodeNameCandidate b j = nodeNameCandidate b k) : j = k := by
  unfold nodeNameCandidate at h
  by_cases j1 : j = 1 <;> by_cases k1 : k = 1
  · rw [j1, k1]
  · rw [if_pos j1, if_neg k1] at h
    have hl := congrArg String.length h
    simp only [String.length_append] at hl
    have := natRepr_length_pos k
    have h2 : (" (" : String).length = 2 := rfl
    have h3 : (")" : String).length = 1 := rfl
    omega
  · rw [if_neg j1, if_pos k1] at h
    have hl := congrArg String.length h
    simp only [String.length_append] at hl
    have := natRepr_length_pos j
    have h2 : (" (" : String).length = 2 := rfl
    have h3 : (")" : String).length = 1 := rfl
    omega
  · rw [if_neg j1, if_neg k1] at h
    have hd := congrArg String.data h
    simp only [String.data_append, List.append_assoc] at hd
    have h1 := List.append_cancel_left hd
    have h2 := List.append_cancel_left h1
    have h3 : (natRepr j).data = (natRepr k).data := by
      have h5 := congrArg List.dropLast h2
      simpa [List.dropLast_concat] using h5
    exact natDigits_inj j k h3

theorem candidates_pigeonhole (cs : List Model) (b : String) (idx : Nat)
    (hidx : cs.length + 2 ≤ idx)
    (hprev : ∀ j, 1 ≤ j → j < idx → ∃ c ∈ cs, c.name = nodeNameCandidate b j) :
    False := by
  classical
  have hsub : (Finset.range (cs.length + 1)).image (fun i => nodeNameCandidate b (i + 1)) ⊆
      (cs.map Model.name).toFinset := by
    intro x hx
    simp only [Finset.mem_image, Finset.mem_range] at hx
    obtain ⟨i, hi, rfl⟩ := hx
    obtain ⟨c, hc, hname⟩ := hprev (i + 1) (by omega) (by omega)
    rw [List.mem_toFinset]
    exact List.mem_map.mpr ⟨c, hc, hname⟩
  have hcard : ((Finset.range (cs.length + 1)).image
      (fun i => nodeNameCandidate b (i + 1))).card = cs.length + 1 := by
    rw [Finset.card_image_of_injOn, Finset.card_range]
    intro i hi i' hi' hh
    have := nodeNameCandidate_inj b (i + 1) (i' + 1) (by omega) (by omega) hh
    omega
  have hle := Finset.card_le_card hsub
  have hfin := List.toFinset_card_le (cs.map Model.name)
  rw [hcard] at hle
  simp only [List.length_map] at hfin
  omega

/-- With fuel at least `children.length + 2 - idx`, the probe loop returns
the first candidate from `idx` on whose display name matches no sibling,
provided all candidates below `idx` matched one. -/
theorem findNewNodeNameAux_spec (cs : List Model) (b : String) :
    ∀ (fuel idx : Nat), 1 ≤ idx →
      (∀ j, 1 ≤ j → j < idx → ∃ c ∈ cs, c.name = nodeNameCandidate b j) →
      cs.length + 2 ≤ fuel + idx →
      ∃ k, idx ≤ k ∧ _findNewNodeNameAux cs b idx fuel = nodeNameCandidate b k ∧
        (∀ c ∈ cs, c.name ≠ nodeNameCandidate b k) ∧
        (∀ j, idx ≤ j → j < k → ∃ c ∈ cs, c.name = nodeNameCandidate b j) := by
  intro fuel
  induction fuel with
  | zero =>
    intro idx _ hprev hbound
    exact (candidates_pigeonhole cs b idx (by omega) hprev).elim
  | succ fuel ih =>
    intro idx h1 hprev hbound
    by_cases hc : cs.any (fun c => c.name = nodeNameCandidate b idx)
    · obtain ⟨c0, hc0, hc0d⟩ := List.any_eq_true.mp hc
      have hc0eq : c0.name = nodeNameCandidate b idx := of_decide_eq_true hc0d
      have hprev' : ∀ j, 1 ≤ j → j < idx + 1 → ∃ c ∈ cs, c.name = nodeNameCandidate b j := by
        intro j hj1 hjlt
        rcases Nat.lt_or_ge j idx with hlt | hge
        · exact hprev j hj1 hlt
        · have hj : j = idx := by omega
          exact ⟨c0, hc0, hj ▸ hc0eq⟩
      obtain ⟨k, hk1, hkeq, hkfree, hkprobe⟩ := ih (idx + 1) (by omega) hprev' (by omega)
      refine ⟨k, by omega, ?_, hkfree, ?_⟩
      · simp only [_findNewNodeNameAux, hc, if_true]
        exact hkeq
      · intro j hj1 hjlt
        rcases Nat.lt_or_ge j (idx + 1) with hlt | hge
        · have hj : j = idx := by omega
          exact ⟨c0, hc0, hj ▸ hc0eq⟩
        · exact hkprobe j hge hjlt
    · refine ⟨idx, Nat.le_refl idx, ?_, ?_, ?_⟩
      · simp [_findNewNodeNameAux, hc]
      · intro c hcmem hname
        exact hc (List.any_eq_true.mpr ⟨c, hcmem, decide_eq_true hname⟩)
      · intro j hj1 hjlt
        exact ((Nat.lt_irrefl idx) (Nat.lt_of_le_of_lt hj1 hjlt)).elim

/-- The name chosen by `_findNewNodeName` from index 1 is the first probe
name free among the sibling display names. -/
theorem findNewNodeName_spec (node : Node) (b : String) :
    ∃ k, 1 ≤ k ∧ _findNewNodeName node b 1 = nodeNameCandidate b k ∧
      (∀ c ∈ node.model.children.getD [], c.name ≠ nodeNameCandidate b k) ∧
      (∀ j, 1 ≤ j → j < k →
        ∃ c ∈ node.model.children.getD [], c.name = nodeNameCandidate b j) := by
  have h := findNewNodeNameAux_spec (node.model.children.getD []) b
    ((node.model.children.getD []).length + 1) 1 (Nat.le_refl 1)
    (by intro j hj1 hjlt; omega) (by omega)
  simpa [_findNewNodeName] using h

/-- The chosen name collides with no existing sibling name. -/
theorem findNewNodeName_fresh (node : Node) (b : String) :
    ∀ c ∈ node.model.children.getD [], c.name ≠ _findNewNodeName node b 1 := by
  obtain ⟨k, _, heq, hfree, _⟩ := findNewNodeName_spec node b
  intro c hc
  rw [heq]
  exact hfree c hc

theorem findIdx?_append_singleton_aux (p : Model → Bool) (m : Model) :
    ∀ (cs : List Model) (i : Nat), (∀ c ∈ cs, p c = false) → p m = true →
      List.findIdx? p (cs ++ [m]) i = some (i + cs.length) := by
  intro cs
  induction cs with
  | nil =>
    intro i _ hm
    simp [List.findIdx?_cons, hm]
  | cons c rest ih =>
    intro i h hm
    rw [List.cons_append, List.findIdx?_cons, if_neg (by simp [h c (by simp)])]
    rw [ih (i + 1) (fun c' hc' => h c' (by simp [hc'])) hm]
    simp only [List.length_cons]
    congr 1
    omega

theorem findIdx?_append_singleton (p : Model → Bool) (cs : List Model) (m : Model)
    (h : ∀ c ∈ cs, p c = false) (hm : p m = true) :
    List.findIdx? p (cs ++ [m]) = some cs.length := by
  simpa using findIdx?_append_singleton_aux p m cs 0 h hm

theorem eraseIdx_append_singleton (cs : List Model) (m : Model) :
    (cs ++ [m]).eraseIdx cs.length = cs := by
  induction cs with
  | nil => rfl
  | cons c rest ih =>
    rw [List.cons_append, List.length_cons, List.eraseIdx_cons_succ, ih]

@[simp]
theorem exceptBind_ok {α β : Type} (a : α) (f : α → Except Err β) :
    (Except.ok a >>= f) = f a := rfl

@[simp]
theorem exceptBind_error {α β : Type} (e : Err) (f : α → Except Err β) :
    ((Except.error e : Except Err α) >>= f) = .error e := rfl

@[simp]
theorem exceptPure_eq_ok {α : Type} (a : α) : (pure a : Except Err α) = .ok a := rfl

@[simp]
theorem exceptMap_ok {α β : Type} (g : α → β) (a : α) :
    (Except.ok a : Except Err α).map g = .ok (g a) := rfl

theorem objGet_of_not_has {k : String} {kvs : List (String × Value)}
    (h : objHas k kvs = false) : objGet k kvs = .undefined := by
  induction kvs with
  | nil => rfl
  | cons kv rest ih =>
    have hk : ¬ kv.1 = k := by
      intro hk
      simp [objHas, hk] at h
    rw [objGet_cons, if_neg hk]
    exact ih (by simpa [objHas, hk] using h)

theorem objGet_mem_of_has {k : String} {kvs : List (String × Value)}
    (h : objHas k kvs = true) : ∃ kv ∈ kvs, kv.1 = k ∧ objGet k kvs = kv.2 := by
  induction kvs with
  | nil => simp [objHas] at h
  | cons kv rest ih =>
    by_cases hk : kv.1 = k
    · exact ⟨kv, by simp, hk, by rw [objGet_cons, if_pos hk]⟩
    · have h' : objHas k rest = true := by simpa [objHas, hk] using h
      obtain ⟨kv', hmem, hkk, hget⟩ := ih h'
      exact ⟨kv', by simp [hmem], hkk, by rw [objGet_cons, if_neg hk]; exact hget⟩

/-- Pointwise success of an item rewrite over a list of object items. -/
theorem mapM_map_obj (f : Value → Except Err Value)
    (g : List (String × Value) → List (String × Value))
    (kvss : List (List (String × Value)))
    (h : ∀ kvs, f (.obj kvs) = .ok (.obj (g kvs))) :
    (kvss.map Value.obj).mapM f = .ok (kvss.map (fun kvs => Value.obj (g kvs))) := by
  induction kvss with
  | nil => rfl
  | cons kvs rest ih =>
    rw [List.map_cons, List.mapM_cons, h, ih]
    rfl

/-- Pointwise success of an item rewrite over the values of an object of
object items. -/
theorem mapM_entries_obj (f : Value → Except Err Value)
    (g : List (String × Value) → List (String × Value))
    (entries : List (String × List (String × Value)))
    (h : ∀ kvs, f (.obj kvs) = .ok (.obj (g kvs))) :
    ((entries.map (fun e => (e.1, Value.obj e.2))).mapM
        (fun kv => do
          let v' ← f kv.2
          pure (kv.1, v'))) =
      .ok (entries.map (fun e => (e.1, Value.obj (g e.2)))) := by
  induction entries with
  | nil => rfl
  | cons e rest ih =>
    simp only [exceptPure_eq_ok] at ih
    rw [List.map_cons, List.mapM_cons]
    simp only [h, exceptBind_ok, exceptPure_eq_ok, ih, List.map_cons]

/-! ## Claim C7: the type converter -/

/-- **C7.** `_convert` stringifies a truthy value (empty string for a falsy
one) for string/markdown targets, takes JS truthiness for boolean targets,
wraps the value in a one-element sequence for array targets, and fails with
`UnsupportedOperationError` on any other target; consequently
`updateFieldAt` retyping string to boolean rewrites every existing item's
value to its truthiness (so `"true" ↦ true` and `"" ↦ false`). -/
theorem c7_convert_retype :
    (∀ (v : Value) (prevT newT : Option String),
      ((newT = some FIELD_TYPE_STRING ∨ newT = some FIELD_TYPE_MARKDOWN) →
        _convert v prevT newT = .ok (.vstr (if jsTruthy v then toJSString v else ""))) ∧
      (newT = some FIELD_TYPE_BOOLEAN → _convert v prevT newT = .ok (.vbool (jsTruthy v))) ∧
      (newT = some FIELD_TYPE_ARRAY → _convert v prevT newT = .ok (.arr [v])) ∧
      (newT ≠ some FIELD_TYPE_STRING → newT ≠ some FIELD_TYPE_MARKDOWN →
        newT ≠ some FIELD_TYPE_BOOLEAN → newT ≠ some FIELD_TYPE_ARRAY →
        ∃ m, _convert v prevT newT = .error (.unsupportedOperationError m))) ∧
    jsTruthy (.vstr "true") = true ∧ jsTruthy (.vstr "") = false ∧
    (∀ (node : Node) (i : Int) (fs : List FieldDecl) (pf newF : FieldDecl)
        (kvss : List (List (String × Value))),
      node.model.fields = some fs → 0 ≤ i → fs[i.toNat]? = some pf →
      node.dataIndex = .vnum (-1) →
      getNodeType node = TYPE_LIST_OBJECT →
      node.data = .arr (kvss.map Value.obj) →
      (getField newF).name = (getField pf).name →
      (getField pf).type = some FIELD_TYPE_STRING →
      (getField newF).type = some FIELD_TYPE_BOOLEAN →
      updateFieldAt node (some i) newF = .ok (listSetAt fs i.toNat newF,
        some (.arr (kvss.map (fun kvs => Value.obj
          (objSet (slugify (getField newF).name)
            (.vbool (jsTruthy (objGet (slugify (getField newF).name) kvs))) kvs)))))) := by
  refine ⟨?_, rfl, rfl, ?_⟩
  · intro v prevT newT
    refine ⟨?_, ?_, ?_, ?_⟩
    · rintro (h | h) <;> simp [_convert, h, FIELD_TYPE_STRING, FIELD_TYPE_MARKDOWN]
    · intro h
      simp [_convert, h, FIELD_TYPE_STRING, FIELD_TYPE_MARKDOWN, FIELD_TYPE_BOOLEAN]
    · intro h
      simp [_convert, h, FIELD_TYPE_STRING, FIELD_TYPE_MARKDOWN, FIELD_TYPE_BOOLEAN,
        FIELD_TYPE_ARRAY]
    · intro h1 h2 h3 h4
      simp only [_convert, h1, h2, h3, h4, or_self, if_false, ite_false]
      exact ⟨_, rfl⟩
  · intro node i fs pf newF kvss hfields hi hpf hdi htype hdata hname hpft hnft
    have hne : ¬ i = -1 := by omega
    have hni : ¬ i < 0 := by omega
    have hstruct : _getStructNode node = .ok node := by
      simp [_getStructNode, hdi]
    have hnames : ¬ ((getField newF).name ≠ (getField pf).name
        ∧ (getNodeType node = TYPE_LIST_OBJECT ∨ getNodeType node = TYPE_MAP_OBJECT)
        ∧ ¬ (getField newF).key) := by
      simp [hname]
    have htdiff : (getField newF).type ≠ (getField pf).type := by
      rw [hpft, hnft]
      simp [FIELD_TYPE_STRING, FIELD_TYPE_BOOLEAN]
    have hcomp : ∀ kvs, (fun item => do
          let v ← jsGetProp item (slugify (getField newF).name)
          let c ← _convert v (getField pf).type (getField newF).type
          jsSetProp item (slugify (getField newF).name) c) (Value.obj kvs) =
        .ok (.obj (objSet (slugify (getField newF).name)
          (.vbool (jsTruthy (objGet (slugify (getField newF).name) kvs))) kvs)) := by
      intro kvs
      simp [jsGetProp, _convert, hpft, hnft, jsSetProp,
        FIELD_TYPE_STRING, FIELD_TYPE_MARKDOWN, FIELD_TYPE_BOOLEAN]
    have hmig : mapDataItems (getNodeType node) node.model node.data (fun item => do
          let v ← jsGetProp item (slugify (getField newF).name)
          let c ← _convert v (getField pf).type (getField newF).type
          jsSetProp item (slugify (getField newF).name) c) =
        .ok (.arr (kvss.map (fun kvs => Value.obj
          (objSet (slugify (getField newF).name)
            (.vbool (jsTruthy (objGet (slugify (getField newF).name) kvs))) kvs)))) := by
      rw [htype, hdata, mapDataItems, if_pos rfl]
      rw [mapM_map_obj _ _ kvss hcomp]
      rfl
    simp only [updateFieldAt, hfields]
    rw [if_neg (by simp [hne])]
    rw [if_neg hni]
    rw [hpf]
    simp only [hstruct, exceptBind_ok, exceptPure_eq_ok]
    rw [if_neg hnames, if_pos htdiff]
    simp only [hmig, exceptBind_ok, exceptPure_eq_ok]

/-- A LIST_OBJECT container with a string field `b` over two items, used to
exercise the string→boolean retyping. -/
def c7Node : Node :=
  .mk (.mk "l" (some "list<object>") false none (some [.decl "b" (some "string") false]))
    (.arr [.obj [("b", .vstr "true")], .obj [("b", .vstr "")]]) none "" "" (.vnum (-1)) .undefined

theorem c7_witness :
    _convert (.vstr "x") none (some FIELD_TYPE_BOOLEAN) = .ok (.vbool true) ∧
    (∃ m, _convert (.vnull) none (some "date") = .error (.unsupportedOperationError m)) ∧
    updateFieldAt c7Node (some 0) (.decl "b" (some "boolean") false) =
      .ok ([.decl "b" (some "boolean") false],
        some (.arr [.obj [("b", .vbool true)], .obj [("b", .vbool false)]])) := by
  refine ⟨?_, ?_, ?_⟩
  · exact (c7_convert_retype.1 (.vstr "x") none (some FIELD_TYPE_BOOLEAN)).2.1 rfl
  · exact (c7_convert_retype.1 .vnull none (some "date")).2.2.2
      (by simp [FIELD_TYPE_STRING]) (by simp [FIELD_TYPE_MARKDOWN])
      (by simp [FIELD_TYPE_BOOLEAN]) (by simp [FIELD_TYPE_ARRAY])
  · have h := c7_convert_retype.2.2.2 c7Node 0 [.decl "b" (some "string") false]
      (.decl "b" (some "string") false) (.decl "b" (some "boolean") false)
      [[("b", .vstr "true")], [("b", .vstr "")]]
      rfl (by omega) rfl rfl rfl rfl rfl rfl rfl
    rw [h]
    rfl

/-! ## Claim C6: protected fields cannot be deleted -/

/-- **C6.** Deleting a key field, or any declared field of a MAP_STRING
container, fails with `ProtectedFieldError` (leaving the pure result — the
schema and data — unproduced), while `canDeleteFieldAt` returns `false` on
the same input instead of raising. -/
theorem c6_protected_fields :
    (∀ (node : Node) (i : Int) (f : Field),
      getFieldAt node i = .ok f → f.key = true →
      (∃ m, deleteFieldAt node i = .error (.protectedFieldError m)) ∧
      canDeleteFieldAt node i = false) ∧
    (∀ (node : Node) (i : Int) (f : Field),
      getFieldAt node i = .ok f → getNodeType node = TYPE_MAP_STRING →
      (∃ m, deleteFieldAt node i = .error (.protectedFieldError m)) ∧
      canDeleteFieldAt node i = false) := by
  constructor
  · intro node i f hget hkey
    have hchk : _checkDeleteFieldAt node i =
        .error (.protectedFieldError ("Cannot delete: field " ++ f.name ++ " is a key field")) := by
      simp [_checkDeleteFieldAt, hget, hkey]
    exact ⟨⟨"Cannot delete: field " ++ f.name ++ " is a key field",
      by simp [deleteFieldAt, hchk]⟩, by simp [canDeleteFieldAt, hchk]⟩
  · intro node i f hget htype
    by_cases hkey : f.key = true
    · have hchk : _checkDeleteFieldAt node i =
          .error (.protectedFieldError ("Cannot delete: field " ++ f.name ++ " is a key field")) := by
        simp [_checkDeleteFieldAt, hget, hkey]
      exact ⟨⟨"Cannot delete: field " ++ f.name ++ " is a key field",
        by simp [deleteFieldAt, hchk]⟩, by simp [canDeleteFieldAt, hchk]⟩
    · have hchk : _checkDeleteFieldAt node i = .error (.protectedFieldError
          ("Cannot delete: field " ++ f.name ++ " is the value field, which is a map(string)")) := by
        simp [_checkDeleteFieldAt, hget, hkey, htype]
      exact ⟨⟨"Cannot delete: field " ++ f.name ++ " is the value field, which is a map(string)",
        by simp [deleteFieldAt, hchk]⟩, by simp [canDeleteFieldAt, hchk]⟩

/-- A MAP_STRING container (key field `Key` plus bare value field `Value`)
with one stored entry. -/
def c6Node : Node :=
  .mk (.mk "m" (some "map<string>") false none (some [.decl "Key" none true, .plain "Value"]))
    (.obj [("k", .vstr "v")]) none "" "" (.vnum (-1)) .undefined

theorem c6_witness :
    (∃ m, deleteFieldAt c6Node 0 = .error (.protectedFieldError m)) ∧
    canDeleteFieldAt c6Node 0 = false ∧
    (∃ m, deleteFieldAt c6Node 1 = .error (.protectedFieldError m)) ∧
    canDeleteFieldAt c6Node 1 = false := by
  have h0 := c6_protected_fields.1 c6Node 0 ⟨"Key", none, true⟩ rfl rfl
  have h1 := c6_protected_fields.2 c6Node 1 ⟨"Value", none, false⟩ rfl rfl
  exact ⟨h0.1, h0.2, h1.1, h1.2⟩

/-! ## Claim C9: `canDeleteFieldAt` versus the failures of `deleteFieldAt` -/

/-- A node whose declared type is TREE but which carries a (non-key) field
declaration: the deletability check passes, yet listing the struct node's
data items throws. -/
def c9Node : Node :=
  .mk (.mk "n" (some "tree") false none (some [.plain "a"])) (.obj []) none "" "" (.vnum (-1)) .undefined

/-- **C9 (counterexample).** It is not the case that `canDeleteFieldAt`
returns `false` whenever `deleteFieldAt` fails: on a TREE-typed node with a
field declaration, `deleteFieldAt` fails (listing the data items of a TREE
is unsupported) while `canDeleteFieldAt` returns `true`. -/
theorem c9_counterexample :
    deleteFieldAt c9Node 0 = .error (.unsupportedOperationError "Cannot list items for type: tree") ∧
    ¬ canDeleteFieldAt c9Node 0 = false := by
  constructor
  · rfl
  · decide

/-- **C9 (amended).** `canDeleteFieldAt` returns `false` exactly when the
field-deletability check `_checkDeleteFieldAt` fails — which covers key
fields, MAP_STRING containers, negative indices and out-of-range indices —
and every such check failure also makes `deleteFieldAt` fail with the same
error; failures that arise only later in `deleteFieldAt` (listing the data
items of a container type that supports none) are not detected by
`canDeleteFieldAt`. -/
theorem c9_canDelete_iff_check (node : Node) (i : Int) :
    (canDeleteFieldAt node i = false ↔ ∃ e, _checkDeleteFieldAt node i = .error e) ∧
    (∀ e, _checkDeleteFieldAt node i = .error e → deleteFieldAt node i = .error e) := by
  refine ⟨⟨?_, ?_⟩, ?_⟩
  · intro hfalse
    cases h : _checkDeleteFieldAt node i with
    | ok f =>
      simp only [canDeleteFieldAt, h] at hfalse
      exact absurd hfalse (by decide)
    | error e => exact ⟨e, rfl⟩
  · rintro ⟨e, he⟩
    simp only [canDeleteFieldAt, he]
  · intro e he
    simp [deleteFieldAt, he]

theorem c9_witness :
    canDeleteFieldAt c9Node (-1) = false ∧
    deleteFieldAt c9Node (-1) = .error (.indexError "Negative field index") := by
  constructor
  · exact (c9_canDelete_iff_check c9Node (-1)).1.mpr ⟨.indexError "Negative field index", rfl⟩
  · exact (c9_canDelete_iff_check c9Node (-1)).2 (.indexError "Negative field index") rfl

/-! ## Claim C10: extra path segments below a leaf container are ignored -/

/-- **C10.** When `_treePathAndIndex` reaches a node with no schema
children whose type is LIST_OBJECT/MAP_OBJECT/MAP_STRING while two or more
segments remain, it consumes only the first remaining segment as the
`dataIndex` (parsed as an integer for LIST_OBJECT, verbatim for map types)
and silently ignores every segment after it, returning without error: the
result equals the call with the later segments dropped. -/
theorem c10_leaf_segments (node : Node) (p : String) (rest : List String) (res : PathAcc)
    (hleaf : node.model.children.getD [] = [])
    (htype : getNodeType node = TYPE_LIST_OBJECT ∨ getNodeType node = TYPE_MAP_OBJECT ∨
      getNodeType node = TYPE_MAP_STRING) :
    _treePathAndIndex node (p :: rest) res =
      .ok { res with dataIndex :=
        (if getNodeType node = TYPE_LIST_OBJECT then
          (match jsParseInt p with | some i => Value.vnum i | none => Value.nan)
        else .vstr p) } ∧
    _treePathAndIndex node (p :: rest) res = _treePathAndIndex node [p] res := by
  have hcond : ¬ (node.model.children.getD []).length > 0 := by
    simp [hleaf]
  constructor
  · rcases htype with h | h | h <;>
      simp [_treePathAndIndex, hcond, h, TYPE_LIST_OBJECT, TYPE_MAP_OBJECT, TYPE_MAP_STRING]
  · rcases htype with h | h | h <;>
      simp [_treePathAndIndex, hcond, h, TYPE_LIST_OBJECT, TYPE_MAP_OBJECT, TYPE_MAP_STRING]

/-- A childless LIST_OBJECT container. -/
def c10Node : Node :=
  .mk (.mk "l" (some "list<object>") false none (some [.plain "Name"])) (.arr []) none "" ""
    (.vnum (-1)) .undefined

theorem c10_witness :
    _treePathAndIndex c10Node ["5", "x", "y"] ⟨"5/x/y", [], .vnum (-1)⟩ =
      .ok ⟨"5/x/y", [], .vnum 5⟩ ∧
    _treePathAndIndex c10Node ["5", "x", "y"] ⟨"5/x/y", [], .vnum (-1)⟩ =
      _treePathAndIndex c10Node ["5"] ⟨"5/x/y", [], .vnum (-1)⟩ := by
  have h := c10_leaf_segments c10Node "5" ["x", "y"] ⟨"5/x/y", [], .vnum (-1)⟩ rfl (Or.inl rfl)
  exact ⟨h.1.trans (by rfl), h.2⟩

/-! ## Claim C8: path resolution on map containers -/

/-- **C8.** `findNode` (the source's `resolvePath`) on a MAP_OBJECT
container with a single path segment `k` returns a projection whose
`dataIndex` is the string `k` and whose data is the stored value, or `{}`
when the key is absent; on a MAP_STRING container an absent key yields the
empty string.  (The stored values of a MAP_OBJECT are objects, hence
truthy, so the `||` fallback only fires for absent keys.) -/
theorem c8_resolve_map :
    (∀ (node : Node) (k : String) (kvs : List (String × Value)),
      getNodeType node = TYPE_MAP_OBJECT →
      node.data = .obj kvs →
      (∀ kv ∈ kvs, ∃ okvs, kv.2 = Value.obj okvs) →
      k ≠ "" → jsSplit k '/' = [k] →
      findNode node k = .ok (.mk node.model
        (if objHas k kvs then objGet k kvs else .obj []) (some node)
        ((if node.path ≠ "" then node.path ++ "/" else "") ++ k) node.path (.vstr k) .undefined)) ∧
    (∀ (node : Node) (k : String) (kvs : List (String × Value)),
      getNodeType node = TYPE_MAP_STRING →
      node.data = .obj kvs →
      objHas k kvs = false →
      k ≠ "" → jsSplit k '/' = [k] →
      findNode node k = .ok (.mk node.model (.vstr "") (some node)
        ((if node.path ≠ "" then node.path ++ "/" else "") ++ k) node.path (.vstr k) .undefined)) := by
  constructor
  · intro node k kvs htype hdata hobjs hk hsplit
    have hnt : ¬ getNodeType node = TYPE_TREE := by
      rw [htype]
      decide
    have hnl : ¬ getNodeType node = TYPE_LIST_OBJECT := by
      rw [htype]
      decide
    rw [findNode, if_neg hk, hsplit]
    simp only [_findNode, if_neg hnt, if_neg hnl, hdata, jsGetProp, exceptBind_ok]
    by_cases hhas : objHas k kvs = true
    · obtain ⟨kv, hmem, hk1, hget⟩ := objGet_mem_of_has hhas
      obtain ⟨okvs, hokvs⟩ := hobjs kv hmem
      rw [if_pos hhas, jsOr, if_pos (by rw [hget, hokvs]; rfl)]
    · have hhas' : objHas k kvs = false := by simpa using hhas
      rw [if_neg hhas]
      rw [objGet_of_not_has hhas']
      rw [jsOr, if_neg (by decide), if_pos htype]
  · intro node k kvs htype hdata hhas hk hsplit
    have hnt : ¬ getNodeType node = TYPE_TREE := by
      rw [htype]
      decide
    have hnl : ¬ getNodeType node = TYPE_LIST_OBJECT := by
      rw [htype]
      decide
    have hnm : ¬ getNodeType node = TYPE_MAP_OBJECT := by
      rw [htype]
      decide
    rw [findNode, if_neg hk, hsplit]
    simp only [_findNode, if_neg hnt, if_neg hnl, hdata, jsGetProp, exceptBind_ok]
    rw [objGet_of_not_has hhas, jsOr, if_neg (by decide), if_neg hnm]

/-- A MAP_OBJECT container holding one object item under key `"k1"`. -/
def c8Node : Node :=
  .mk (.mk "m" (some "map<object>") false none (some [.decl "Key" none true]))
    (.obj [("k1", .obj [("a", .vstr "v")])]) none "m" "m" (.vnum (-1)) .undefined

/-- A MAP_STRING container with no stored keys. -/
def c8NodeS : Node :=
  .mk (.mk "s" (some "map<string>") false none (some [.decl "Key" none true, .plain "Value"]))
    (.obj []) none "s" "s" (.vnum (-1)) .undefined

theorem c8_witness :
    findNode c8Node "k1" = .ok (.mk c8Node.model (.obj [("a", .vstr "v")]) (some c8Node)
      "m/k1" "m" (.vstr "k1") .undefined) ∧
    findNode c8Node "k2" = .ok (.mk c8Node.model (.obj []) (some c8Node)
      "m/k2" "m" (.vstr "k2") .undefined) ∧
    findNode c8NodeS "k1" = .ok (.mk c8NodeS.model (.vstr "") (some c8NodeS)
      "s/k1" "s" (.vstr "k1") .undefined) := by
  refine ⟨?_, ?_, ?_⟩
  · have h := c8_resolve_map.1 c8Node "k1" [("k1", .obj [("a", .vstr "v")])] rfl rfl
      (by intro kv hkv; simp at hkv; exact ⟨[("a", .vstr "v")], by rw [hkv]⟩)
      (by decide) rfl
    rw [h]
    rfl
  · have h := c8_resolve_map.1 c8Node "k2" [("k1", .obj [("a", .vstr "v")])] rfl rfl
      (by intro kv hkv; simp at hkv; exact ⟨[("a", .vstr "v")], by rw [hkv]⟩)
      (by decide) rfl
    rw [h]
    rfl
  · have h := c8_resolve_map.2 c8NodeS "k1" [] rfl rfl rfl (by decide) rfl
    rw [h]
    rfl

/-! ## Claim C5: `treePathAndIndex` -/

/-- **C5.** On a tree whose TREE levels contain children slugged `foo` and
then `bar`, with `bar` a childless LIST_OBJECT container, resolving
`"foo/bar/5"` yields tree path `"foo/bar"` and the integer data index `5`
(the selector is parsed with `parseInt`); and when the next path segment
matches no child at a level that has schema children, `treePathAndIndex`
fails with `NotFoundError`. -/
theorem c5_treePathAndIndex :
    (∀ (root : Node) (cs0 cs1 : List Model) (fooM barM : Model)
        (kvs0 kvs1 : List (String × Value)),
      root.model.children = some cs0 → cs0 ≠ [] →
      cs0.find? (fun c => slugify c.name = "foo") = some fooM →
      fooM.children = some cs1 → cs1 ≠ [] →
      cs1.find? (fun c => slugify c.name = "bar") = some barM →
      getNodeTypeM barM = TYPE_LIST_OBJECT →
      barM.children.getD [] = [] →
      root.data = .obj kvs0 →
      objGet "foo" kvs0 = .obj kvs1 →
      treePathAndIndex root "foo/bar/5" = .ok ⟨"foo/bar/5", "foo/bar", .vnum 5⟩) ∧
    (∀ (node : Node) (path p : String) (rest : List String) (cs : List Model),
      node.model.children = some cs → cs ≠ [] →
      path ≠ "" → jsSplit path '/' = p :: rest →
      (∀ c ∈ cs, ¬ slugify c.name = p) →
      ∃ m, treePathAndIndex node path = .error (.notFoundError m)) := by
  constructor
  · intro root cs0 cs1 fooM barM kvs0 kvs1 hch0 hne0 hfind0 hch1 hne1 hfind1
      htypeM hleaf hdata hkv1
    have hlen0 : 0 < cs0.length := List.length_pos.mpr hne0
    have hlen1 : 0 < cs1.length := List.length_pos.mpr hne1
    have hparse : jsParseInt "5" = some 5 := rfl
    have hsegs : (if ("foo/bar/5" : String).length > 0
        then jsSplit "foo/bar/5" '/' else []) = ["foo", "bar", "5"] := rfl
    have hsegs' : jsSplit "foo/bar/5" '/' = ["foo", "bar", "5"] := rfl
    have hstep : _treePathAndIndex root ["foo", "bar", "5"] ⟨"foo/bar/5", [], .vnum (-1)⟩ =
        .ok ⟨"foo/bar/5", ["foo", "bar"], .vnum 5⟩ := by
      simp [_treePathAndIndex, _findChild, hch0, hch1, hfind0, hfind1, hdata, hkv1,
        jsGetProp, getNodeType, htypeM, hparse, hleaf, hlen0, hlen1]
    have hlen9 : ("foo/bar/5" : String).length > 0 := by decide
    simp only [treePathAndIndex, hsegs', hlen9, if_true, hstep, exceptBind_ok]
    rfl
  · intro node path p rest cs hch hne hpath hsplit hmiss
    have hlen : 0 < path.length := by
      cases path with
      | mk data =>
        cases data with
        | nil => exact absurd rfl hpath
        | cons c cs' => simp [String.length]
    have hfind : cs.find? (fun c => slugify c.name = p) = none := by
      rw [List.find?_eq_none]
      intro c hc
      simpa using hmiss c hc
    refine ⟨"Could not find child with slug " ++ p, ?_⟩
    have hlenc : 0 < cs.length := List.length_pos.mpr hne
    have hstep : _treePathAndIndex node (p :: rest) ⟨path, [], .vnum (-1)⟩ =
        .error (.notFoundError ("Could not find child with slug " ++ p)) := by
      rw [_treePathAndIndex, if_pos (by simpa [hch] using hlenc)]
      rw [_findChild]
      simp only [hch, hfind, exceptBind_error]
    simp only [treePathAndIndex, if_pos hlen, hsplit, hstep, exceptBind_error]

def c5BarM : Model := .mk "Bar" (some "list<object>") false none (some [.plain "Name"])

def c5FooM : Model := .mk "Foo" (some "tree") false (some [c5BarM]) none

def c5Root : Node :=
  .mk (.mk "root" (some "tree") false (some [c5FooM]) none)
    (.obj [("foo", .obj [("bar", .arr [])])]) none "" "" (.vnum (-1)) .undefined

theorem c5_witness :
    treePathAndIndex c5Root "foo/bar/5" = .ok ⟨"foo/bar/5", "foo/bar", .vnum 5⟩ ∧
    (∃ m, treePathAndIndex c5Root "nope/bar" = .error (.notFoundError m)) := by
  constructor
  · exact c5_treePathAndIndex.1 c5Root [c5FooM] [c5BarM] c5FooM c5BarM
      [("foo", .obj [("bar", .arr [])])] [("bar", .arr [])]
      rfl (by simp) rfl rfl (by simp) rfl rfl rfl rfl rfl
  · exact c5_treePathAndIndex.2 c5Root "nope/bar" "nope" ["bar"] [c5FooM]
      rfl (by simp) (by decide) rfl
      (by
        intro c hc
        simp only [List.mem_singleton] at hc
        subst hc
        decide)

/-! ## Claim C4: collision-free node names -/

/-- A TREE parent with no children, used to exercise the collision chain. -/
def c4Parent : Node :=
  .mk (.mk "root" (some "tree") false (some []) none) (.obj []) none "" "" (.vnum (-1)) .undefined

/-- Three successive `addNode` calls with the same requested name, keeping
the returned display names. -/
def c4Names : Except Err (String × String × String) := do
  let r1 ← addNode c4Parent "A" TYPE_TREE
  let r2 ← addNode r1.1 "A" TYPE_TREE
  let r3 ← addNode r2.1 "A" TYPE_TREE
  pure (r1.2.model.name, r2.2.model.name, r3.2.model.name)

/-- **C4.** Adding `"A"` three times under the same parent names the
siblings `"A"`, `"A (2)"`, `"A (3)"`; in general the name chosen by
`_findNewNodeName` (as `addNode` calls it) is the first of
`requestedName`, `requestedName (2)`, `requestedName (3)`, … whose exact
display name (unslugified) matches no existing sibling. -/
theorem c4_collision_free_names :
    c4Names = .ok ("A", "A (2)", "A (3)") ∧
    (∀ (node : Node) (requestedName : String),
      ∃ k, 1 ≤ k ∧
        _findNewNodeName node requestedName 1 = nodeNameCandidate requestedName k ∧
        (∀ c ∈ node.model.children.getD [], c.name ≠ nodeNameCandidate requestedName k) ∧
        (∀ j, 1 ≤ j → j < k →
          ∃ c ∈ node.model.children.getD [], c.name = nodeNameCandidate requestedName j)) := by
  constructor
  · rfl
  · intro node requestedName
    exact findNewNodeName_spec node requestedName

theorem c4_witness :
    ∃ k, 1 ≤ k ∧
      _findNewNodeName c4Parent "B" 1 = nodeNameCandidate "B" k ∧
      (∀ c ∈ c4Parent.model.children.getD [], c.name ≠ nodeNameCandidate "B" k) ∧
      (∀ j, 1 ≤ j → j < k →
        ∃ c ∈ c4Parent.model.children.getD [], c.name = nodeNameCandidate "B" j) :=
  c4_collision_free_names.2 c4Parent "B"

/-! ## Claim C3: `renameNode` -/

/-- A child named `a` of a parent TREE whose data holds `"x"` under the
slug `a`; renaming it to `A` collides on the slug. -/
def c3Node : Node :=
  .mk (.mk "a" (some "tree") false none none) (.vstr "x")
    (some (.mk (.mk "root" (some "tree") false (some [.mk "a" (some "tree") false none none]) none)
      (.obj [("a", .vstr "x")]) none "" "" (.vnum (-1)) .undefined))
    "a" "a" .undefined (.vnum (-1))

/-- **C3 (counterexample).** Renaming `a` to `A` — a name change whose slug
is unchanged — deletes the data outright: the parent's data ends up empty,
so the data previously held under the old slug is *not* stored under the
slug of the new name (the claim's conclusion fails at this input). -/
theorem c3_counterexample :
    ¬ (∀ node' parent' pkvs, renameNode c3Node "A" = .ok node' →
        node'.parent = some parent' → parent'.data = .obj pkvs →
        objGet (slugify "A") pkvs = objGet (slugify c3Node.model.name)
          [("a", Value.vstr "x")] ∧
        objHas (slugify c3Node.model.name) pkvs = false) := by
  intro h
  have h2 := h _ _ [] rfl rfl rfl
  exact Value.noConfusion h2.1

/-- **C3 (amended).** For a node with a parent, `renameNode(node, newName)`
sets the display name to `newName`, moves the data held under the old slug
to the new slug in the parent's data, leaves the old slug key absent, and
recomputes `path`/`treePath` from the parent's path plus the new slug —
*provided* the new slug differs from the old slug (when the two slugs
coincide, the copy-then-delete order deletes the binding instead). -/
theorem c3_renameNode (node parent : Node) (name : String) (kvs : List (String × Value))
    (hpar : node.parent = some parent)
    (hdata : parent.data = .obj kvs)
    (hslug : slugify name ≠ slugify node.model.name) :
    ∃ node' parent' pkvs, renameNode node name = .ok node' ∧
      node'.model.name = name ∧
      node'.parent = some parent' ∧
      parent'.data = .obj pkvs ∧
      objGet (slugify name) pkvs = objGet (slugify node.model.name) kvs ∧
      objHas (slugify node.model.name) pkvs = false ∧
      node'.path = (if parent.path ≠ "" then parent.path ++ "/" ++ slugify name
        else slugify name) ∧
      node'.treePath = node'.path := by
  cases node with
  | mk m d p pa tp di fi =>
    cases parent with
    | mk pm pd pp ppa ptp pdi pfi =>
      simp only [Node.parent_mk] at hpar
      subst hpar
      simp only [Node.data_mk] at hdata
      subst hdata
      simp only [Node.model_mk] at hslug ⊢
      refine ⟨.mk (m.setName name) d
          (some (.mk pm (.obj (objDelete (slugify m.name)
            (objSet (slugify name) (objGet (slugify m.name) kvs) kvs))) pp ppa ptp pdi pfi))
          (if ppa ≠ "" then ppa ++ "/" ++ slugify name else slugify name)
          (if ppa ≠ "" then ppa ++ "/" ++ slugify name else slugify name) di fi,
        .mk pm (.obj (objDelete (slugify m.name)
          (objSet (slugify name) (objGet (slugify m.name) kvs) kvs))) pp ppa ptp pdi pfi,
        objDelete (slugify m.name) (objSet (slugify name) (objGet (slugify m.name) kvs) kvs),
        ?_, ?_, ?_, ?_, ?_, ?_, ?_, ?_⟩
      · rw [renameNode]
        simp only [Node.parent_mk, Node.data_mk, Node.model_mk, jsGetProp, jsSetProp, jsDelProp,
          exceptBind_ok, Node.dataIndex_mk, Node.fieldIndex_mk, Node.path_mk]
      · simp
      · simp
      · simp
      · rw [objGet_objDelete_other hslug]
        exact objGet_objSet_self (slugify name) (objGet (slugify m.name) kvs) kvs
      · exact objHas_objDelete_self (slugify m.name) _
      · simp
      · simp

def c3GoodParent : Node :=
  .mk (.mk "root" (some "tree") false (some []) none) (.obj [("old_name", .vstr "x")])
    none "p" "p" (.vnum (-1)) .undefined

def c3GoodNode : Node :=
  .mk (.mk "Old Name" (some "tree") false none none) (.vstr "x") (some c3GoodParent)
    "p/old_name" "p/old_name" .undefined (.vnum (-1))

theorem c3_witness :
    ∃ node' parent' pkvs, renameNode c3GoodNode "New" = .ok node' ∧
      node'.model.name = "New" ∧
      node'.parent = some parent' ∧
      parent'.data = .obj pkvs ∧
      objGet (slugify "New") pkvs =
        objGet (slugify c3GoodNode.model.name) [("old_name", .vstr "x")] ∧
      objHas (slugify c3GoodNode.model.name) pkvs = false ∧
      node'.path = (if c3GoodParent.path ≠ "" then c3GoodParent.path ++ "/" ++ slugify "New"
        else slugify "New") ∧
      node'.treePath = node'.path :=
  c3_renameNode c3GoodNode c3GoodParent "New" [("old_name", .vstr "x")] rfl rfl (by decide)

/-! ## Claim C2: field rename migration in `updateFieldAt` -/

/-- The per-item rename migration:
`item[newSlug] = item[oldSlug]; delete item[oldSlug]`. -/
def renameMigrate (oldSlug newSlug : String) (kvs : List (String × Value)) :
    List (String × Value) :=
  objDelete oldSlug (objSet newSlug (objGet oldSlug kvs) kvs)

/-- A LIST_OBJECT container with field `a` and one item holding `"v"`;
renaming the field to `A` collides on the slug. -/
def c2Node : Node :=
  .mk (.mk "l" (some "list<object>") false none (some [.plain "a"]))
    (.arr [.obj [("a", .vstr "v")]]) none "" "" (.vnum (-1)) .undefined

/-- **C2 (counterexample).** Renaming field `a` to `A` — a name change
whose slug is unchanged — deletes the items' values outright: the item ends
up empty, so its previous value is *not* stored under the slug of the new
name (the claim's conclusion fails at this input). -/
theorem c2_counterexample :
    ¬ (∀ fs' d' xs, updateFieldAt c2Node (some 0) (.decl "A" none false) = .ok (fs', some d') →
        d' = .arr xs →
        ∀ item ∈ xs, ∃ kvs, item = .obj kvs ∧
          objGet (slugify "A") kvs = objGet (slugify "a") [("a", Value.vstr "v")] ∧
          objHas (slugify "a") kvs = false) := by
  intro h
  have h2 := h [.decl "A" none false] (.arr [.obj []]) [.obj []] rfl rfl (.obj [])
    (by simp)
  obtain ⟨kvs, hkvs, hget, _⟩ := h2
  have hnil : ([] : List (String × Value)) = kvs := by
    injection hkvs
  rw [← hnil] at hget
  exact Value.noConfusion hget

/-- **C2 (amended).** On a LIST_OBJECT or MAP_OBJECT container, updating a
field at a valid index with a non-key field that differs from the previous
declaration only in its name moves, in every existing (object) item, the
value from the old name's slug to the new name's slug and leaves the old
slug absent — *provided* the two slugs differ (when they coincide, the
copy-then-delete order deletes the value instead). -/
theorem c2_updateFieldAt_rename (node : Node) (i : Int) (fs : List FieldDecl)
    (pf newF : FieldDecl)
    (hfields : node.model.fields = some fs)
    (hi : 0 ≤ i) (hpf : fs[i.toNat]? = some pf)
    (hdi : node.dataIndex = .vnum (-1))
    (hname : (getField newF).name ≠ (getField pf).name)
    (htype : (getField newF).type = (getField pf).type)
    (hkey : (getField newF).key = false)
    (hpkey : (getField pf).key = false)
    (hslug : slugify (getField newF).name ≠ slugify (getField pf).name) :
    (∀ (kvss : List (List (String × Value))),
      getNodeType node = TYPE_LIST_OBJECT →
      node.data = .arr (kvss.map Value.obj) →
      updateFieldAt node (some i) newF = .ok (listSetAt fs i.toNat newF,
        some (.arr (kvss.map (fun kvs => Value.obj
          (renameMigrate (slugify (getField pf).name) (slugify (getField newF).name) kvs)))))) ∧
    (∀ (entries : List (String × List (String × Value))),
      getNodeType node = TYPE_MAP_OBJECT →
      node.data = .obj (entries.map (fun e => (e.1, Value.obj e.2))) →
      updateFieldAt node (some i) newF = .ok (listSetAt fs i.toNat newF,
        some (.obj (entries.map (fun e => (e.1, Value.obj
          (renameMigrate (slugify (getField pf).name) (slugify (getField newF).name) e.2))))))) ∧
    (∀ kvs, objGet (slugify (getField newF).name)
        (renameMigrate (slugify (getField pf).name) (slugify (getField newF).name) kvs) =
          objGet (slugify (getField pf).name) kvs ∧
      objHas (slugify (getField pf).name)
        (renameMigrate (slugify (getField pf).name) (slugify (getField newF).name) kvs) = false) := by
  have hne : ¬ i = -1 := by omega
  have hni : ¬ i < 0 := by omega
  have hstruct : _getStructNode node = .ok node := by
    simp [_getStructNode, hdi]
  have hcomp : ∀ kvs, (fun item => do
        let v ← jsGetProp item (slugify (getField pf).name)
        let item1 ← jsSetProp item (slugify (getField newF).name) v
        jsDelProp item1 (slugify (getField pf).name)) (Value.obj kvs) =
      .ok (.obj (renameMigrate (slugify (getField pf).name)
        (slugify (getField newF).name) kvs)) := by
    intro kvs
    simp [jsGetProp, jsSetProp, jsDelProp, renameMigrate]
  have htdone : ¬ (getField newF).type ≠ (getField pf).type := by
    simp [htype]
  refine ⟨?_, ?_, ?_⟩
  · intro kvss hnt hdata
    have hguard : (getField newF).name ≠ (getField pf).name
        ∧ (getNodeType node = TYPE_LIST_OBJECT ∨ getNodeType node = TYPE_MAP_OBJECT)
        ∧ ¬ (getField newF).key = true := by
      exact ⟨hname, Or.inl hnt, by simp [hkey]⟩
    have hmig : mapDataItems (getNodeType node) node.model node.data (fun item => do
          let v ← jsGetProp item (slugify (getField pf).name)
          let item1 ← jsSetProp item (slugify (getField newF).name) v
          jsDelProp item1 (slugify (getField pf).name)) =
        .ok (.arr (kvss.map (fun kvs => Value.obj
          (renameMigrate (slugify (getField pf).name) (slugify (getField newF).name) kvs)))) := by
      rw [hnt, hdata, mapDataItems, if_pos rfl]
      rw [mapM_map_obj _ _ kvss hcomp]
      rfl
    simp only [updateFieldAt, hfields]
    rw [if_neg (by simp [hne])]
    rw [if_neg hni]
    rw [hpf]
    simp only [hstruct, exceptBind_ok, exceptPure_eq_ok]
    rw [if_pos hguard]
    simp only [hmig, exceptBind_ok]
    rw [if_neg htdone]
  · intro entries hnt hdata
    have hguard : (getField newF).name ≠ (getField pf).name
        ∧ (getNodeType node = TYPE_LIST_OBJECT ∨ getNodeType node = TYPE_MAP_OBJECT)
        ∧ ¬ (getField newF).key = true := by
      exact ⟨hname, Or.inr hnt, by simp [hkey]⟩
    have hnl : ¬ getNodeType node = TYPE_LIST_OBJECT := by
      rw [hnt]
      decide
    have hmig : mapDataItems (getNodeType node) node.model node.data (fun item => do
          let v ← jsGetProp item (slugify (getField pf).name)
          let item1 ← jsSetProp item (slugify (getField newF).name) v
          jsDelProp item1 (slugify (getField pf).name)) =
        .ok (.obj (entries.map (fun e => (e.1, Value.obj
          (renameMigrate (slugify (getField pf).name) (slugify (getField newF).name) e.2))))) := by
      rw [hnt, hdata, mapDataItems]
      rw [if_neg (by decide)]
      rw [if_pos (by decide : TYPE_MAP_OBJECT = TYPE_MAP_OBJECT ∨ TYPE_MAP_OBJECT = TYPE_MAP_STRING)]
      simp only [mapM_entries_obj (fun item => do
          let v ← jsGetProp item (slugify (getField pf).name)
          let item1 ← jsSetProp item (slugify (getField newF).name) v
          jsDelProp item1 (slugify (getField pf).name))
        (renameMigrate (slugify (getField pf).name) (slugify (getField newF).name))
        entries hcomp, exceptBind_ok]
    simp only [updateFieldAt, hfields]
    rw [if_neg (by simp [hne])]
    rw [if_neg hni]
    rw [hpf]
    simp only [hstruct, exceptBind_ok, exceptPure_eq_ok]
    rw [if_pos hguard]
    simp only [hmig, exceptBind_ok]
    rw [if_neg htdone]
  · intro kvs
    constructor
    · rw [renameMigrate, objGet_objDelete_other hslug]
      exact objGet_objSet_self _ _ kvs
    · exact objHas_objDelete_self _ _

/-- A LIST_OBJECT container with field `Old` over two items. -/
def c2GoodNode : Node :=
  .mk (.mk "l" (some "list<object>") false none (some [.plain "Old"]))
    (.arr [.obj [("old", .vstr "v1")], .obj [("old", .vstr "v2")]]) none "" "" (.vnum (-1)) .undefined

theorem c2_witness :
    updateFieldAt c2GoodNode (some 0) (.decl "New" none false) =
      .ok ([.decl "New" none false],
        some (.arr [.obj [("new", .vstr "v1")], .obj [("new", .vstr "v2")]])) := by
  have h := (c2_updateFieldAt_rename c2GoodNode 0 [.plain "Old"] (.plain "Old")
      (.decl "New" none false) rfl (by omega) rfl rfl (by decide) rfl rfl rfl (by decide)).1
    [[("old", .vstr "v1")], [("old", .vstr "v2")]] rfl rfl
  rw [h]
  rfl

/-! ## Claim C1: `addNode` followed by `deleteNode` -/

/-- A TREE parent with no `children` array whose data already holds a key
equal to the slug of the name about to be added: the round trip loses that
binding and materializes an empty children array. -/
def c1BadParent : Node :=
  .mk (.mk "root" (some "tree") false none none) (.obj [("a", .vstr "x")]) none "" ""
    (.vnum (-1)) .undefined

def c1BadRoundtrip : Except Err Node := do
  let pc ← addNode c1BadParent "A" "tree"
  deleteNode pc.2

/-- **C1 (counterexample).** `addNode(parent, "A", TREE)` then `deleteNode`
on the result does not restore this parent: the slug of the chosen name
(`a`) already keyed the parent's data, so the round trip deletes the
pre-existing binding (and turns the absent `children` into `[]`). -/
theorem c1_counterexample :
    ¬ (∀ p2, c1BadRoundtrip = .ok p2 →
        p2.model.children = c1BadParent.model.children ∧ p2.data = c1BadParent.data) := by
  intro h
  have h2 := h (.mk (.mk "root" (some "tree") false (some []) none) (.obj []) none "" ""
    (.vnum (-1)) .undefined) rfl
  exact Option.noConfusion h2.1

/-- **C1 (amended).** `addNode(parent, name, type)` followed by
`deleteNode` on the returned projection leaves the parent's
`model.children` sequence and data object structurally equal to their
prior state, *provided* the parent already has a children sequence and the
slug of the chosen collision-free name is not already a key of the
parent's data object (the collision probe compares display names, not
slugs, so a slug collision overwrites and then deletes an existing
binding, and a missing children array is materialized as `[]`). -/
theorem c1_addNode_deleteNode (parent : Node) (requestedName nodeType : String)
    (kvs : List (String × Value)) (cs : List Model)
    (hdata : parent.data = .obj kvs)
    (hchildren : parent.model.children = some cs)
    (hfresh : objHas (slugify (_findNewNodeName parent requestedName 1)) kvs = false) :
    ∃ parent' child parent'',
      addNode parent requestedName nodeType = .ok (parent', child) ∧
      deleteNode child = .ok parent'' ∧
      parent''.model.children = parent.model.children ∧
      parent''.data = parent.data := by
  have hfreshnames := findNewNodeName_fresh parent requestedName
  cases parent with
  | mk pm pd pp ppa ptp pdi pfi =>
    simp only [Node.data_mk] at hdata
    subst hdata
    simp only [Node.model_mk] at hchildren ⊢
    set nm := _findNewNodeName (Node.mk pm (.obj kvs) pp ppa ptp pdi pfi) requestedName 1 with hnm
    have hfreshnames' : ∀ c ∈ cs, c.name ≠ nm := by
      intro c hc
      have := hfreshnames c (by simp [hchildren]; exact hc)
      simpa [hnm] using this
    have hset : jsSetProp (.obj kvs) (slugify nm) (addNodeDataInit nodeType) =
        .ok (.obj (kvs ++ [(slugify nm, addNodeDataInit nodeType)])) := by
      rw [jsSetProp, objSet_of_not_has _ hfresh]
    refine ⟨.mk (pm.setChildren (some (cs ++
          [.mk nm (some nodeType) false (addNodeChildrenInit nodeType) (addNodeFieldsInit nodeType)])))
        (.obj (kvs ++ [(slugify nm, addNodeDataInit nodeType)])) pp ppa ptp pdi pfi,
      .mk (.mk nm (some nodeType) false (addNodeChildrenInit nodeType) (addNodeFieldsInit nodeType))
        (addNodeDataInit nodeType)
        (some (.mk (pm.setChildren (some (cs ++
          [.mk nm (some nodeType) false (addNodeChildrenInit nodeType) (addNodeFieldsInit nodeType)])))
          (.obj (kvs ++ [(slugify nm, addNodeDataInit nodeType)])) pp ppa ptp pdi pfi))
        (ppa ++ "/" ++ slugify nm) (ppa ++ "/" ++ slugify nm) (.vnum (-1)) pfi,
      .mk ((pm.setChildren (some (cs ++
          [.mk nm (some nodeType) false (addNodeChildrenInit nodeType) (addNodeFieldsInit nodeType)]))).setChildren
          (some cs))
        (.obj kvs) pp ppa ptp pdi pfi,
      ?_, ?_, ?_, ?_⟩
    · rw [addNode]
      simp only [Node.model_mk, Node.data_mk, Node.path_mk, Node.fieldIndex_mk, Model.name_mk,
        ← hnm, hchildren, Option.getD_some, hset, exceptBind_ok, exceptPure_eq_ok]
    · rw [deleteNode]
      simp only [Node.parent_mk, Node.model_mk, Model.children_setChildren, Model.name_mk]
      have hidx : List.findIdx? (fun c => c.name = nm) (cs ++
          [Model.mk nm (some nodeType) false (addNodeChildrenInit nodeType) (addNodeFieldsInit nodeType)]) =
          some cs.length := by
        apply findIdx?_append_singleton
        · intro c hc
          exact decide_eq_false (hfreshnames' c hc)
        · simp
      rw [hidx]
      simp only [Node.data_mk]
      rw [jsDelProp, objDelete_append_self _ hfresh]
      rw [eraseIdx_append_singleton]
      rfl
    · simp [hchildren]
    · simp

def c1GoodParent : Node :=
  .mk (.mk "root" (some "tree") false (some []) none) (.obj []) none "" "" (.vnum (-1)) .undefined

theorem c1_witness :
    ∃ parent' child parent'',
      addNode c1GoodParent "A" "tree" = .ok (parent', child) ∧
      deleteNode child = .ok parent'' ∧
      parent''.model.children = c1GoodParent.model.children ∧
      parent''.data = c1GoodParent.data :=
  c1_addNode_deleteNode c1GoodParent "A" "tree" [] [] rfl rfl rfl

end CmsJson
